import Mathlib

/-!
Verification development for the `emg_2_pose` repository.

The repository has three Python source files:
* `src/fft/emg_fft_analysis.py` — a spectral-analysis script: FFT of one EMG
  column, single-sided magnitude spectrum, per-band peak report;
* `src/dataloader.py` — `HandDataLoader` with `load_hand_data` / `load_emg_data`;
* `src/sample_app.py` — visualization helpers, among them the left/right-hand
  histogram split.

This file shallowly embeds the data model and the operations of those files:
machine floats are idealized as an ordered field (instantiated at `ℚ` for
executable checks and at `ℝ` where the discrete Fourier transform is involved),
numpy arrays become lists, library calls (`numpy.fft.fftfreq`, `scipy.fft.fft`,
`scipy.signal.find_peaks`, `numpy.argmax`, boolean masking) are embedded from
their documented semantics, and the Python exception flow is made explicit.
-/

namespace Emg2Pose

/-! ## Spectral analyzer: `src/fft/emg_fft_analysis.py` -/

variable {F : Type} [LinearOrderedField F]

/-- `numpy.fft.fftfreq n d`: the discrete-Fourier-transform sample
frequencies `[0, 1, ..., (n-1)//2, -(n//2), ..., -1] / (d*n)`.
Entry `i` is `i/(d*n)` for `i < (n+1)/2` and `(i-n)/(d*n)` afterwards. -/
def fftfreq (n : ℕ) (d : F) : List F :=
  (List.range n).map fun i =>
    if i < (n + 1) / 2 then (i : F) / (d * n) else ((i : F) - n) / (d * n)

/-- Line 28 of `emg_fft_analysis.py`:
`xf = fftfreq(n, 1/SAMPLING_RATE)[:n//2]`. -/
def xfList (n : ℕ) (rate : F) : List F :=
  (fftfreq n (1 / rate)).take (n / 2)

/-- Bin `k` of the forward discrete Fourier transform computed by
`scipy.fft.fft` (line 27): `X[k] = Σ_t x[t]·exp(-2πi·k·t/n)`. -/
noncomputable def dftBin (x : List ℝ) (k : ℕ) : ℂ :=
  ∑ t ∈ Finset.range x.length,
    (x.getD t 0 : ℂ) * Complex.exp (-(2 * (Real.pi : ℂ) * Complex.I * k * t) / x.length)

/-- The full FFT output array `yf = fft(emg_data)` (line 27). -/
noncomputable def fftOut (x : List ℝ) : List ℂ :=
  (List.range x.length).map (dftBin x)

/-- Line 31: `psd = 2.0/n * np.abs(yf[0:n//2])`. -/
noncomputable def psdList (x : List ℝ) : List ℝ :=
  ((fftOut x).take (x.length / 2)).map fun z => 2 / (x.length : ℝ) * Complex.abs z

/-- The largest entry of a list (`0` for the empty list); the value
`numpy.max` would return on a nonempty array. -/
def listMax : List F → F
  | [] => 0
  | [a] => a
  | a :: b :: t => max a (listMax (b :: t))

/-- `numpy.argmax`: index of the first occurrence of the maximum
(`0` for the empty list). -/
def argmaxIdx : List F → ℕ
  | [] => 0
  | [_] => 0
  | a :: b :: t => if listMax (b :: t) ≤ a then 0 else argmaxIdx (b :: t) + 1

/-- Local maximum in the sense of `scipy.signal.find_peaks`: sample `p` is the
midpoint (rounded down) of a maximal run `[l, r]` of equal values that is
strictly greater than the values adjacent to the run on both sides.  A strict
local maximum is the special case `l = r = p`. -/
def IsLocalPeak (x : List F) (p : ℕ) : Prop :=
  ∃ l, l < x.length ∧ ∃ r, r < x.length ∧
    1 ≤ l ∧ l ≤ r ∧ r + 1 < x.length ∧ p = (l + r) / 2 ∧
    (∀ j, l ≤ j → j ≤ r → x.getD j 0 = x.getD l 0) ∧
    x.getD (l - 1) 0 < x.getD l 0 ∧ x.getD (r + 1) 0 < x.getD l 0

/-- Boolean test deciding `IsLocalPeak`. -/
def peakB (x : List F) (p : ℕ) : Bool :=
  (List.range x.length).any fun l =>
    (List.range x.length).any fun r =>
      decide (1 ≤ l ∧ l ≤ r ∧ r + 1 < x.length ∧ p = (l + r) / 2 ∧
        (∀ j ∈ List.range x.length, l ≤ j → j ≤ r → x.getD j 0 = x.getD l 0) ∧
        x.getD (l - 1) 0 < x.getD l 0 ∧ x.getD (r + 1) 0 < x.getD l 0)

/-- The index array returned by `scipy.signal.find_peaks` (in increasing
order). -/
def findPeaksIdx (x : List F) : List ℕ :=
  (List.range x.length).filter fun p => peakB x p

/-- `find_peaks(band_psd, height=0)` (line 57): local maxima whose sample
value passes the `height ≥ 0` filter. -/
def admissiblePeaks (x : List F) : List ℕ :=
  (findPeaksIdx x).filter fun p => decide ((0 : F) ≤ x.getD p 0)

/-- Lines 57–70: the reported (frequency, magnitude) pair for one band.
If `find_peaks` found peaks, the highest-magnitude peak
(`peaks[np.argmax(band_psd[peaks])]`) is reported; otherwise the band's
global maximum sample (`np.argmax(band_psd)`). -/
def reportBandPeak (freq psd : List F) : F × F :=
  let peaks := admissiblePeaks psd
  if peaks.isEmpty then
    (freq.getD (argmaxIdx psd) 0, psd.getD (argmaxIdx psd) 0)
  else
    let k := peaks.getD (argmaxIdx (peaks.map fun p => psd.getD p 0)) 0
    (freq.getD k 0, psd.getD k 0)

/-- The peak notion stated in the spec's words (for comparison with the
code's `find_peaks` semantics): a sample that is strictly greater than both
immediate neighbours and passes the height ≥ 0 admissibility filter. -/
def StrictPeakSpec (x : List F) (p : ℕ) : Prop :=
  1 ≤ p ∧ p + 1 < x.length ∧ x.getD (p - 1) 0 < x.getD p 0 ∧
  x.getD (p + 1) 0 < x.getD p 0 ∧ 0 ≤ x.getD p 0

/-- Lines 47–54: numpy boolean masking with
`band_mask = (xf >= low) & (xf <= high)`; returns
`(band_freq, band_psd) = (xf[band_mask], psd[band_mask])`. -/
def bandSelect (xf psd : List F) (low high : F) : List F × List F :=
  let pairs := (xf.zip psd).filter fun q => decide (low ≤ q.1) && decide (q.1 ≤ high)
  (pairs.map Prod.fst, pairs.map Prod.snd)

/-- Lines 34–40: the five hardcoded frequency bands `(low, high, label)`. -/
def frequencyBands : List (ℚ × ℚ × String) :=
  [(0, 20, "Delta-Theta (0-20Hz)"),
   (20, 50, "Low Beta (20-50Hz)"),
   (50, 100, "High Beta (50-100Hz)"),
   (100, 200, "Gamma (100-200Hz)"),
   (200, 500, "High Gamma (200-500Hz)")]

/-- Band membership test of line 47, `low ≤ x ∧ x ≤ high`. -/
def inBand (x : ℚ) (b : ℚ × ℚ × String) : Prop :=
  b.1 ≤ x ∧ x ≤ b.2.1

/-- A concrete input column for the analyzer: a pure 99 Hz sine wave sampled
at 200 Hz for 17 samples, `x[t] = sin(2π·99·t/200)`. -/
noncomputable def sineInput : List ℝ :=
  (List.range 17).map fun (t : ℕ) => Real.sin (2 * Real.pi * 99 * t / 200)

/-! ## Loader: `src/dataloader.py` -/

/-- The result of a successful `pandas.read_csv`, reduced to what the loader
reports: a table with its row and column counts. -/
structure Df where
  rows : ℕ
  cols : ℕ
deriving DecidableEq

/-- Outcome of `pandas.read_csv(filepath)`: a parsed table, or a raised
exception (`FileNotFoundError`, `ParserError`, ...) carrying a message. -/
inductive ReadResult
  | ok (df : Df)
  | err (msg : String)
deriving DecidableEq

/-- The two fields set in `HandDataLoader.__init__`. -/
structure LoaderState where
  hand_data : Option Df
  emg_data : Option Df
deriving DecidableEq

/-- What one loader call produces: the updated loader state, the returned
value (`None` on failure), and the console output. -/
structure LoadOutcome where
  state : LoaderState
  ret : Option Df
  log : List String
deriving DecidableEq

/-- `HandDataLoader.load_hand_data` (lines 11–27): `self.hand_data =
pd.read_csv(filepath)` inside `try`; on success logs the row/column counts and
returns the table; on any exception logs the error and returns `None`.  The
assignment to `self.hand_data` only happens if `read_csv` returned. -/
def load_hand_data (env : String → ReadResult) (s : LoaderState) (filepath : String) :
    LoadOutcome :=
  match env filepath with
  | .ok df =>
      ⟨{ s with hand_data := some df }, some df,
        ["Hand data loaded: " ++ toString df.rows ++ " rows, " ++
          toString df.cols ++ " columns"]⟩
  | .err e => ⟨s, none, ["Error loading hand data: " ++ e]⟩

/-- `HandDataLoader.load_emg_data` (lines 29–45): same contract for
`self.emg_data`. -/
def load_emg_data (env : String → ReadResult) (s : LoaderState) (filepath : String) :
    LoadOutcome :=
  match env filepath with
  | .ok df =>
      ⟨{ s with emg_data := some df }, some df,
        ["EMG data loaded: " ++ toString df.rows ++ " rows, " ++
          toString df.cols ++ " columns"]⟩
  | .err e => ⟨s, none, ["Error loading EMG data: " ++ e]⟩

/-! ## Visualization split: `src/sample_app.py` -/

/-- A row of the hand-pose table, with the fields `visualize_data` reads. -/
structure HandRow where
  timestamp : ℚ
  is_left : Bool
  thumb_mcp_quat_0 : ℚ
deriving DecidableEq

/-- Default row used when indexing out of range. -/
def defaultRow : HandRow := ⟨0, false, 0⟩

/-- Line 50: indices of the rows selected by
`hand_data[hand_data['is_left'] == True]`. -/
def leftHandIdx (rows : List HandRow) : Finset ℕ :=
  (Finset.range rows.length).filter fun i => (rows.getD i defaultRow).is_left = true

/-- Line 51: indices of the rows selected by
`hand_data[hand_data['is_left'] == False]`. -/
def rightHandIdx (rows : List HandRow) : Finset ℕ :=
  (Finset.range rows.length).filter fun i => (rows.getD i defaultRow).is_left = false

/-! ## Exception flow of the analysis script (lines 13–138) -/

/-- Python exceptions relevant to the script's `try/except` structure. -/
inductive PyExn
  | fileNotFound
  | parseError
  | nameError
  | otherExn (msg : String)
deriving DecidableEq

/-- How one run of `emg_fft_analysis.py` terminates. -/
inductive ScriptOutcome
  | completed
  | handledFileNotFound
  | handledGeneric
  | uncaught (e : PyExn)
deriving DecidableEq

/-- The `except Exception` handler body (lines 135–138): it prints the
message, then evaluates `df.columns.tolist()`.  The name `df` is looked up in
the script scope: if the binding exists the handler finishes normally, and if
`df` was never assigned the lookup itself raises `NameError`, which escapes
(an exception raised inside a handler is not caught by that handler). -/
def genericHandler (dfScope : Option Df) : ScriptOutcome :=
  match dfScope with
  | some _ => .handledGeneric
  | none => .uncaught .nameError

/-- The script's `try/except` skeleton.  `read` is the outcome of
`pd.read_csv(FILENAME)` on line 14 — the first statement of the `try` block,
so when it raises, `df` is still unbound.  `body` is the rest of the `try`
block, run with `df` bound. -/
def runFFTScript (read : Except PyExn Df) (body : Df → Except PyExn Unit) :
    ScriptOutcome :=
  match read with
  | .ok df =>
      match body df with
      | .ok _ => .completed
      | .error .fileNotFound => .handledFileNotFound
      | .error _ => genericHandler (some df)
  | .error .fileNotFound => .handledFileNotFound
  | .error _ => genericHandler none

/-! ## List indexing helpers -/

lemma getD_of_lt {α : Type} (l : List α) (i : ℕ) (d : α) (h : i < l.length) :
    l.getD i d = l[i] := by
  simp [List.getD_eq_getElem?_getD, List.getElem?_eq_getElem h]

lemma getD_take_of_lt {α : Type} (l : List α) (m i : ℕ) (d : α) (h : i < m) :
    (l.take m).getD i d = l.getD i d := by
  simp [List.getD_eq_getElem?_getD, List.getElem?_take, h]

lemma getD_map_range {α : Type} (f : ℕ → α) (n i : ℕ) (d : α) (h : i < n) :
    ((List.range n).map f).getD i d = f i := by
  simp [List.getD_eq_getElem?_getD, List.getElem?_map, List.getElem?_range, h]

lemma getD_map_of_lt {α β : Type} (f : α → β) (l : List α) (i : ℕ) (d : β) (d' : α)
    (h : i < l.length) :
    (l.map f).getD i d = f (l.getD i d') := by
  simp [List.getD_eq_getElem?_getD, List.getElem?_map, List.getElem?_eq_getElem h]

/-! ## Entries of the frequency axis and of the magnitude spectrum -/

lemma fftfreq_length (n : ℕ) (d : F) : (fftfreq n d).length = n := by
  simp [fftfreq]

lemma xfList_length (n : ℕ) (rate : F) : (xfList n rate).length = n / 2 := by
  simp [xfList, fftfreq_length, Nat.div_le_self]

lemma xfList_getD (n : ℕ) (rate : F) (i : ℕ) (h : i < n / 2) :
    (xfList n rate).getD i 0 = (i : F) * rate / n := by
  have hn : i < n := lt_of_lt_of_le h (Nat.div_le_self n 2)
  have h2 : i < (n + 1) / 2 := by omega
  rw [xfList, getD_take_of_lt _ _ _ _ h, fftfreq, getD_map_range _ _ _ _ hn, if_pos h2]
  rcases eq_or_ne rate 0 with h0 | h0
  · simp [h0]
  · have hn0 : (n : F) ≠ 0 := Nat.cast_ne_zero.mpr (by omega)
    field_simp

lemma fftOut_length (x : List ℝ) : (fftOut x).length = x.length := by
  simp [fftOut]

lemma psdList_length (x : List ℝ) : (psdList x).length = x.length / 2 := by
  simp [psdList, fftOut_length, Nat.div_le_self]

lemma psdList_getD (x : List ℝ) (i : ℕ) (h : i < x.length / 2) :
    (psdList x).getD i 0 = 2 / (x.length : ℝ) * Complex.abs (dftBin x i) := by
  have hn : i < x.length := lt_of_lt_of_le h (Nat.div_le_self _ 2)
  have hlen : i < ((fftOut x).take (x.length / 2)).length := by
    rw [List.length_take, fftOut_length]
    omega
  rw [psdList, getD_map_of_lt _ _ _ _ 0 hlen, getD_take_of_lt _ _ _ _ h, fftOut,
    getD_map_range _ _ _ _ hn]

/-! ## Claim theorems -/

/-- Claim C3: the five configured frequency bands cover `[0, 500]` Hz
exhaustively with inclusive membership on both endpoints: every `x` in
`[0, 500]` satisfies `low ≤ x ≤ high` for at least one band, and the shared
boundary 20 Hz satisfies the membership test of both adjacent bands. -/
theorem claim_c3_bands_cover (x : ℚ) (h0 : 0 ≤ x) (h1 : x ≤ 500) :
    (∃ b ∈ frequencyBands, inBand x b) ∧
    inBand 20 ((0 : ℚ), (20 : ℚ), "Delta-Theta (0-20Hz)") ∧
    inBand 20 ((20 : ℚ), (50 : ℚ), "Low Beta (20-50Hz)") ∧
    ((0 : ℚ), (20 : ℚ), "Delta-Theta (0-20Hz)") ∈ frequencyBands ∧
    ((20 : ℚ), (50 : ℚ), "Low Beta (20-50Hz)") ∈ frequencyBands := by
  refine ⟨?_, by norm_num [inBand], by norm_num [inBand],
    by simp [frequencyBands], by simp [frequencyBands]⟩
  rcases le_or_lt x 20 with h | h
  · exact ⟨(0, 20, "Delta-Theta (0-20Hz)"), by simp [frequencyBands], h0, h⟩
  rcases le_or_lt x 50 with h' | h'
  · exact ⟨(20, 50, "Low Beta (20-50Hz)"), by simp [frequencyBands], le_of_lt h, h'⟩
  rcases le_or_lt x 100 with h'' | h''
  · exact ⟨(50, 100, "High Beta (50-100Hz)"), by simp [frequencyBands], le_of_lt h', h''⟩
  rcases le_or_lt x 200 with h3 | h3
  · exact ⟨(100, 200, "Gamma (100-200Hz)"), by simp [frequencyBands], le_of_lt h'', h3⟩
  · exact ⟨(200, 500, "High Gamma (200-500Hz)"), by simp [frequencyBands], le_of_lt h3, h1⟩

/-- Witness for C3 at `x = 250`. -/
theorem claim_c3_witness :
    (0 : ℚ) ≤ 250 ∧ (250 : ℚ) ≤ 500 ∧
    ((∃ b ∈ frequencyBands, inBand 250 b) ∧
      inBand 20 ((0 : ℚ), (20 : ℚ), "Delta-Theta (0-20Hz)") ∧
      inBand 20 ((20 : ℚ), (50 : ℚ), "Low Beta (20-50Hz)") ∧
      ((0 : ℚ), (20 : ℚ), "Delta-Theta (0-20Hz)") ∈ frequencyBands ∧
      ((20 : ℚ), (50 : ℚ), "Low Beta (20-50Hz)") ∈ frequencyBands) :=
  ⟨by norm_num, by norm_num, claim_c3_bands_cover 250 (by norm_num) (by norm_num)⟩

/-- Claim C6: for every `i` in `[0, N/2)`, the `i`-th element of the spectral
analyzer's frequency axis `xf` equals `i * samplingRate / N`. -/
theorem claim_c6_freq_axis (n : ℕ) (rate : F) (i : ℕ) (h : i < n / 2) :
    (xfList n rate).getD i 0 = (i : F) * rate / n :=
  xfList_getD n rate i h

/-- Witness for C6 at `n = 4`, `rate = 200`, `i = 1` (over `ℚ`). -/
theorem claim_c6_witness :
    1 < 4 / 2 ∧ (xfList 4 (200 : ℚ)).getD 1 0 = (1 : ℚ) * 200 / 4 :=
  ⟨by decide, claim_c6_freq_axis 4 (200 : ℚ) 1 (by decide)⟩

/-- Claim C5: every element of the single-sided magnitude array satisfies
`psd[i] = (2/N) * |X[i]|` where `X` is the discrete Fourier transform of the
`N`-sample input column — amplitude-style scaling, no squaring of the
magnitude. -/
theorem claim_c5_psd_scaling (x : List ℝ) (i : ℕ) (h : i < x.length / 2) :
    (psdList x).getD i 0 = 2 / (x.length : ℝ) * Complex.abs (dftBin x i) :=
  psdList_getD x i h

/-- Witness for C5 at `x = [1, 2]`, `i = 0`. -/
theorem claim_c5_witness :
    0 < ([1, 2] : List ℝ).length / 2 ∧
    (psdList [1, 2]).getD 0 0 =
      2 / (([1, 2] : List ℝ).length : ℝ) * Complex.abs (dftBin [1, 2] 0) :=
  ⟨by decide, claim_c5_psd_scaling [1, 2] 0 (by decide)⟩

/-- Claim C7: for every path, `load_hand_data` (and likewise `load_emg_data`)
either returns the parsed table, stores it, and logs its row and column
counts, or, on any read/parse failure, logs the error and returns `None`.
The embedded loader is a total function, so no exception crosses the loader
boundary: every execution falls in one of the two disjuncts. -/
theorem claim_c7_loader_boundary (env : String → ReadResult) (s : LoaderState)
    (path : String) :
    ((∃ df, env path = .ok df ∧ (load_hand_data env s path).ret = some df ∧
        (load_hand_data env s path).log =
          ["Hand data loaded: " ++ toString df.rows ++ " rows, " ++
            toString df.cols ++ " columns"]) ∨
      (∃ e, env path = .err e ∧ (load_hand_data env s path).ret = none ∧
        (load_hand_data env s path).log = ["Error loading hand data: " ++ e])) ∧
    ((∃ df, env path = .ok df ∧ (load_emg_data env s path).ret = some df ∧
        (load_emg_data env s path).log =
          ["EMG data loaded: " ++ toString df.rows ++ " rows, " ++
            toString df.cols ++ " columns"]) ∨
      (∃ e, env path = .err e ∧ (load_emg_data env s path).ret = none ∧
        (load_emg_data env s path).log = ["Error loading EMG data: " ++ e])) := by
  cases h : env path with
  | ok df => exact ⟨Or.inl ⟨df, rfl, by simp [load_hand_data, h], by simp [load_hand_data, h]⟩,
      Or.inl ⟨df, rfl, by simp [load_emg_data, h], by simp [load_emg_data, h]⟩⟩
  | err e => exact ⟨Or.inr ⟨e, rfl, by simp [load_hand_data, h], by simp [load_hand_data, h]⟩,
      Or.inr ⟨e, rfl, by simp [load_emg_data, h], by simp [load_emg_data, h]⟩⟩

/-- Claim C9: each single-file load is atomic with respect to loader state —
if a load fails (returns `None`) the corresponding stored field keeps exactly
its prior value, and the other table field is never modified by either
operation. -/
theorem claim_c9_load_atomic (env : String → ReadResult) (s : LoaderState)
    (path : String) :
    ((load_hand_data env s path).ret = none →
      (load_hand_data env s path).state.hand_data = s.hand_data) ∧
    (load_hand_data env s path).state.emg_data = s.emg_data ∧
    ((load_emg_data env s path).ret = none →
      (load_emg_data env s path).state.emg_data = s.emg_data) ∧
    (load_emg_data env s path).state.hand_data = s.hand_data := by
  cases h : env path <;> simp [load_hand_data, load_emg_data, h]

/-- Witness for C9: a loader with both tables loaded, pointed at a failing
path, keeps both fields. -/
theorem claim_c9_witness :
    (load_hand_data (fun _ => ReadResult.err "missing") ⟨some ⟨1, 2⟩, some ⟨3, 4⟩⟩
        "hand_data_log.csv").state.hand_data = some ⟨1, 2⟩ ∧
    (load_emg_data (fun _ => ReadResult.err "missing") ⟨some ⟨1, 2⟩, some ⟨3, 4⟩⟩
        "emg_data.csv").state.emg_data = some ⟨3, 4⟩ :=
  ⟨(claim_c9_load_atomic (fun _ => ReadResult.err "missing") ⟨some ⟨1, 2⟩, some ⟨3, 4⟩⟩
      "hand_data_log.csv").1 rfl,
    (claim_c9_load_atomic (fun _ => ReadResult.err "missing") ⟨some ⟨1, 2⟩, some ⟨3, 4⟩⟩
      "emg_data.csv").2.2.1 rfl⟩

/-- Claim C8: for a hand-pose table whose `is_left` column is boolean, the
rows selected as left hand (`is_left == True`) and as right hand
(`is_left == False`) are disjoint and their union is exactly the full set of
rows. -/
theorem claim_c8_split_partition (rows : List HandRow) :
    Disjoint (leftHandIdx rows) (rightHandIdx rows) ∧
    leftHandIdx rows ∪ rightHandIdx rows = Finset.range rows.length := by
  constructor
  · rw [Finset.disjoint_left]
    intro i hl hr
    simp only [leftHandIdx, rightHandIdx, Finset.mem_filter] at hl hr
    rw [hl.2] at hr
    exact absurd hr.2 (by simp)
  · ext i
    simp only [leftHandIdx, rightHandIdx, Finset.mem_union, Finset.mem_filter,
      Finset.mem_range]
    cases hb : (rows.getD i defaultRow).is_left <;> simp [hb]

/-- Claim C10: if `pd.read_csv` raises any exception other than
`FileNotFoundError`, the generic `except Exception` handler references the
never-assigned name `df`, so a `NameError` escapes the script. -/
theorem claim_c10_handler_fault (e : PyExn) (body : Df → Except PyExn Unit)
    (h : e ≠ PyExn.fileNotFound) :
    runFFTScript (Except.error e) body = ScriptOutcome.uncaught PyExn.nameError := by
  cases e with
  | fileNotFound => exact absurd rfl h
  | parseError => rfl
  | nameError => rfl
  | otherExn m => rfl

/-- Witness for C10: a parse error while reading the CSV ends in an uncaught
`NameError`. -/
theorem claim_c10_witness :
    runFFTScript (Except.error PyExn.parseError) (fun _ => Except.ok ()) =
      ScriptOutcome.uncaught PyExn.nameError :=
  claim_c10_handler_fault PyExn.parseError (fun _ => Except.ok ()) (by decide)

/-- Counterexample to claim C1 as stated: for an input column of length
`N = 4` the retained frequency axis and magnitude array have exactly
`⌊N/2⌋ = 2` entries, not `⌊N/2⌋ + 1 = 3`. -/
theorem claim_c1_counterexample :
    (xfList 4 (200 : ℚ)).length = 2 ∧
    (psdList [1, 0, 2, 5]).length = 2 ∧ (2 : ℕ) ≠ 4 / 2 + 1 := by
  refine ⟨by decide, ?_, by decide⟩
  rw [psdList_length]
  decide

/-- Claim C1 (amended): the single-sided spectrum retained for all further
analysis consists of exactly the first `⌊N/2⌋` non-negative-frequency bins of
the discrete Fourier transform — the frequency axis and the magnitude array
both have length `⌊N/2⌋`, and entry `i` is the `i`-th bin of the full
transform (`fftfreq` entry `i`, and the scaled magnitude of DFT bin `i`). -/
theorem claim_c1_amended (n : ℕ) (rate : F) (x : List ℝ) :
    (xfList n rate).length = n / 2 ∧
    (psdList x).length = x.length / 2 ∧
    (∀ i, i < n / 2 → (xfList n rate).getD i 0 = (fftfreq n (1 / rate)).getD i 0) ∧
    (∀ i, i < x.length / 2 →
      (psdList x).getD i 0 = 2 / (x.length : ℝ) * Complex.abs (dftBin x i)) := by
  refine ⟨xfList_length n rate, psdList_length x, ?_, fun i hi => psdList_getD x i hi⟩
  intro i hi
  exact getD_take_of_lt _ _ _ _ hi

/-- Witness for the amended C1 at `n = 4`, `rate = 200`, `x = [1, 0, 2, 5]`. -/
theorem claim_c1_amended_witness :
    (xfList 4 (200 : ℚ)).length = 4 / 2 ∧
    (psdList [1, 0, 2, 5]).length = ([1, 0, 2, 5] : List ℝ).length / 2 ∧
    (xfList 4 (200 : ℚ)).getD 1 0 = (fftfreq 4 (1 / (200 : ℚ))).getD 1 0 ∧
    (psdList [1, 0, 2, 5]).getD 0 0 =
      2 / (([1, 0, 2, 5] : List ℝ).length : ℝ) * Complex.abs (dftBin [1, 0, 2, 5] 0) := by
  obtain ⟨h1, h2, h3, h4⟩ := claim_c1_amended 4 (200 : ℚ) ([1, 0, 2, 5] : List ℝ)
  exact ⟨h1, h2, h3 1 (by decide), h4 0 (by decide)⟩

/-! ## Peak search: `scipy.signal.find_peaks` semantics and `numpy.argmax` -/

lemma IsLocalPeak.lt_length {x : List F} {p : ℕ} (h : IsLocalPeak x p) :
    p < x.length := by
  obtain ⟨l, hl, r, hr, h1, hlr, hr1, hp, _⟩ := h
  omega

lemma peakB_iff (x : List F) (p : ℕ) : peakB x p = true ↔ IsLocalPeak x p := by
  constructor
  · intro h
    simp only [peakB, List.any_eq_true, List.mem_range, decide_eq_true_eq] at h
    obtain ⟨l, hl, r, hr, h1, h2, h3, h4, h5, h6, h7⟩ := h
    refine ⟨l, hl, r, hr, h1, h2, h3, h4, ?_, h6, h7⟩
    intro j hjl hjr
    exact h5 j (show j < x.length by omega) hjl hjr
  · rintro ⟨l, hl, r, hr, h1, h2, h3, h4, h5, h6, h7⟩
    simp only [peakB, List.any_eq_true, List.mem_range, decide_eq_true_eq]
    exact ⟨l, hl, r, hr, h1, h2, h3, h4, fun j _ hjl hjr => h5 j hjl hjr, h6, h7⟩

lemma mem_findPeaksIdx {x : List F} {p : ℕ} :
    p ∈ findPeaksIdx x ↔ IsLocalPeak x p := by
  simp only [findPeaksIdx, List.mem_filter, List.mem_range, peakB_iff]
  exact ⟨fun h => h.2, fun h => ⟨h.lt_length, h⟩⟩

lemma mem_admissiblePeaks {x : List F} {p : ℕ} :
    p ∈ admissiblePeaks x ↔ IsLocalPeak x p ∧ 0 ≤ x.getD p 0 := by
  simp only [admissiblePeaks, List.mem_filter, decide_eq_true_eq, mem_findPeaksIdx]

lemma listMax_cons_cons (a b : F) (t : List F) :
    listMax (a :: b :: t) = max a (listMax (b :: t)) := rfl

lemma argmaxIdx_cons_cons (a b : F) (t : List F) :
    argmaxIdx (a :: b :: t) =
      if listMax (b :: t) ≤ a then 0 else argmaxIdx (b :: t) + 1 := rfl

lemma le_listMax (x : List F) : ∀ j, j < x.length → x.getD j 0 ≤ listMax x := by
  induction x with
  | nil => intro j hj; simp at hj
  | cons a t ih =>
    intro j hj
    cases t with
    | nil =>
      have hj0 : j = 0 := by simp at hj; omega
      subst hj0
      simp [listMax]
    | cons b t' =>
      cases j with
      | zero =>
        rw [List.getD_cons_zero, listMax_cons_cons]
        exact le_max_left _ _
      | succ j' =>
        have h := ih j' (by simpa using hj)
        rw [List.getD_cons_succ, listMax_cons_cons]
        exact le_trans h (le_max_right _ _)

lemma argmaxIdx_lt_length (x : List F) (h : x ≠ []) : argmaxIdx x < x.length := by
  induction x with
  | nil => exact absurd rfl h
  | cons a t ih =>
    cases t with
    | nil => simp [argmaxIdx]
    | cons b t' =>
      rw [argmaxIdx_cons_cons]
      by_cases hle : listMax (b :: t') ≤ a
      · rw [if_pos hle]; simp
      · rw [if_neg hle, List.length_cons]
        exact Nat.succ_lt_succ (ih (by simp))

lemma getD_argmaxIdx (x : List F) (h : x ≠ []) :
    x.getD (argmaxIdx x) 0 = listMax x := by
  induction x with
  | nil => exact absurd rfl h
  | cons a t ih =>
    cases t with
    | nil => simp [argmaxIdx, listMax]
    | cons b t' =>
      rw [argmaxIdx_cons_cons, listMax_cons_cons]
      by_cases hle : listMax (b :: t') ≤ a
      · rw [if_pos hle, List.getD_cons_zero, max_eq_left hle]
      · rw [if_neg hle, List.getD_cons_succ, ih (by simp),
          max_eq_right (le_of_not_le hle)]

lemma argmax_map_spec (peaks : List ℕ) (f : ℕ → F) (h : peaks ≠ []) :
    peaks.getD (argmaxIdx (peaks.map f)) 0 ∈ peaks ∧
    ∀ q ∈ peaks, f q ≤ f (peaks.getD (argmaxIdx (peaks.map f)) 0) := by
  have hml : (peaks.map f).length = peaks.length := List.length_map _ _
  have hne : peaks.map f ≠ [] := by simpa using h
  have ha : argmaxIdx (peaks.map f) < peaks.length := by
    have := argmaxIdx_lt_length (peaks.map f) hne
    omega
  constructor
  · rw [getD_of_lt _ _ _ ha]
    exact List.getElem_mem _
  · intro q hq
    obtain ⟨j, hj, rfl⟩ := List.mem_iff_getElem.mp hq
    have h1 : f peaks[j] = (peaks.map f).getD j 0 := by
      rw [getD_map_of_lt f peaks j 0 0 hj, getD_of_lt _ _ _ hj]
    have h2 : f (peaks.getD (argmaxIdx (peaks.map f)) 0) =
        (peaks.map f).getD (argmaxIdx (peaks.map f)) 0 := by
      rw [getD_map_of_lt f peaks _ 0 0 ha]
    rw [h1, h2, getD_argmaxIdx _ hne]
    exact le_listMax _ j (by omega)

/-- Counterexample to claim C2 as stated: on the band arrays
`band_freq = [0..7]`, `band_psd = [10, 0, 0, 1, 1, 0, 0, 0]` no sample is
strictly greater than both immediate neighbours, so by the claim the band's
global maximum sample `(0, 10)` should be reported — but the code
(`find_peaks` plateau semantics) detects the flat peak `[1, 1]` at midpoint
index 3 and reports `(3, 1)`. -/
theorem claim_c2_counterexample :
    (¬ ∃ p, StrictPeakSpec ([10, 0, 0, 1, 1, 0, 0, 0] : List ℚ) p) ∧
    ([10, 0, 0, 1, 1, 0, 0, 0] : List ℚ).getD 0 0 = 10 ∧
    (∀ j, 1 ≤ j → j < 8 → ([10, 0, 0, 1, 1, 0, 0, 0] : List ℚ).getD j 0 < 10) ∧
    reportBandPeak ([0, 1, 2, 3, 4, 5, 6, 7] : List ℚ) [10, 0, 0, 1, 1, 0, 0, 0] =
      (3, 1) ∧
    ((3 : ℚ), (1 : ℚ)) ≠ ((0 : ℚ), (10 : ℚ)) := by
  refine ⟨?_, by decide, ?_, by decide, by decide⟩
  · rintro ⟨p, h1, h2, h3, h4, h5⟩
    have hp : p < 7 := by
      have : ([10, 0, 0, 1, 1, 0, 0, 0] : List ℚ).length = 8 := by decide
      omega
    interval_cases p <;> revert h3 h4 <;> decide
  · intro j h1 h2
    interval_cases j <;> decide

/-- Claim C2 (amended): for every band with a non-empty sample selection, the
reported peak follows `scipy.signal.find_peaks` local-maxima semantics — a
peak is a sample, or a flat run of equal samples taken at its midpoint
(rounded down), strictly greater than the values adjacent to it on both
sides, subject to the height ≥ 0 filter; if at least one such peak exists the
highest-magnitude one is reported, otherwise the band's global maximum sample
is reported. -/
theorem claim_c2_amended (freq psd : List F) (hne : psd ≠ []) :
    ((∃ p, IsLocalPeak psd p ∧ 0 ≤ psd.getD p 0) →
      ∃ p, (IsLocalPeak psd p ∧ 0 ≤ psd.getD p 0) ∧
        (∀ q, IsLocalPeak psd q → 0 ≤ psd.getD q 0 →
          psd.getD q 0 ≤ psd.getD p 0) ∧
        reportBandPeak freq psd = (freq.getD p 0, psd.getD p 0)) ∧
    ((¬ ∃ p, IsLocalPeak psd p ∧ 0 ≤ psd.getD p 0) →
      ∃ m, m < psd.length ∧
        (∀ j, j < psd.length → psd.getD j 0 ≤ psd.getD m 0) ∧
        reportBandPeak freq psd = (freq.getD m 0, psd.getD m 0)) := by
  constructor
  · rintro ⟨p0, hp0⟩
    have hmem : p0 ∈ admissiblePeaks psd := mem_admissiblePeaks.mpr hp0
    have hpe : admissiblePeaks psd ≠ [] := fun hnil => by simp [hnil] at hmem
    obtain ⟨hkmem, hkmax⟩ :=
      argmax_map_spec (admissiblePeaks psd) (fun q => psd.getD q 0) hpe
    refine ⟨(admissiblePeaks psd).getD
      (argmaxIdx ((admissiblePeaks psd).map fun q => psd.getD q 0)) 0,
      mem_admissiblePeaks.mp hkmem, ?_, ?_⟩
    · intro q hq1 hq2
      exact hkmax q (mem_admissiblePeaks.mpr ⟨hq1, hq2⟩)
    · simp only [reportBandPeak]
      rw [if_neg (by simp [List.isEmpty_iff, hpe])]
  · intro hno
    have hpe : admissiblePeaks psd = [] := by
      rcases List.eq_nil_or_concat (admissiblePeaks psd) with h | ⟨t, a, h⟩
      · exact h
      · exact absurd ⟨a, mem_admissiblePeaks.mp (by simp [h])⟩ hno
    refine ⟨argmaxIdx psd, argmaxIdx_lt_length psd hne, ?_, ?_⟩
    · intro j hj
      rw [getD_argmaxIdx psd hne]
      exact le_listMax psd j hj
    · simp only [reportBandPeak]
      rw [if_pos (by simp [hpe])]

/-- Witness for the amended C2: `band_freq = [10, 20, 30]`,
`band_psd = [0, 5, 0]` has the single strict peak at index 1, which is
reported. -/
theorem claim_c2_amended_witness :
    ∃ p, (IsLocalPeak ([0, 5, 0] : List ℚ) p ∧ 0 ≤ ([0, 5, 0] : List ℚ).getD p 0) ∧
      (∀ q, IsLocalPeak ([0, 5, 0] : List ℚ) q → 0 ≤ ([0, 5, 0] : List ℚ).getD q 0 →
        ([0, 5, 0] : List ℚ).getD q 0 ≤ ([0, 5, 0] : List ℚ).getD p 0) ∧
      reportBandPeak ([10, 20, 30] : List ℚ) [0, 5, 0] =
        (([10, 20, 30] : List ℚ).getD p 0, ([0, 5, 0] : List ℚ).getD p 0) :=
  (claim_c2_amended ([10, 20, 30] : List ℚ) [0, 5, 0] (by decide)).1
    ⟨1, ⟨1, by decide, 1, by decide, le_refl 1, le_refl 1, by decide, by decide,
      fun j h1 h2 => by rw [Nat.le_antisymm h2 h1], by decide, by decide⟩, by decide⟩

/-! ## Reported frequencies come from the retained frequency axis -/

lemma getD_eq_zero_or_mem (l : List F) (k : ℕ) :
    l.getD k 0 = 0 ∨ l.getD k 0 ∈ l := by
  by_cases h : k < l.length
  · right
    rw [getD_of_lt _ _ _ h]
    exact List.getElem_mem _
  · left
    exact List.getD_eq_default l 0 (by omega)

lemma reportBandPeak_fst (freq psd : List F) :
    (reportBandPeak freq psd).1 = 0 ∨ (reportBandPeak freq psd).1 ∈ freq := by
  simp only [reportBandPeak]
  by_cases h : (admissiblePeaks psd).isEmpty
  · rw [if_pos h]
    exact getD_eq_zero_or_mem freq _
  · rw [if_neg h]
    exact getD_eq_zero_or_mem freq _

lemma bandSelect_fst_subset (xf psd : List F) (low high v : F)
    (hv : v ∈ (bandSelect xf psd low high).1) : v ∈ xf := by
  simp only [bandSelect, List.mem_map] at hv
  obtain ⟨⟨a, b⟩, hq, rfl⟩ := hv
  exact (List.of_mem_zip (List.mem_filter.mp hq).1).1

lemma mem_xfList (n : ℕ) (rate : F) (v : F) (hv : v ∈ xfList n rate) :
    ∃ i, i < n / 2 ∧ v = (i : F) * rate / n := by
  obtain ⟨i, hi, rfl⟩ := List.mem_iff_getElem.mp hv
  have hl := xfList_length n rate
  have hil : i < n / 2 := by omega
  exact ⟨i, hil, by rw [← getD_of_lt _ _ 0 hi, xfList_getD n rate i hil]⟩

/-- Claim C4 at the failing input: a pure 99 Hz sine sampled at 200 Hz for
17 samples.  99 Hz lies in the 50–100 Hz band and below the Nyquist frequency
100 Hz, the band's sample selection is non-empty, yet the reported peak
frequency deviates from 99 Hz by more than one bin `R/N = 200/17`: the
retained axis `fftfreq(17, 1/200)[:17//2]` stops at bin 7 = 1400/17 ≈ 82.35
Hz, so no reportable frequency is within one bin of 99 Hz. -/
theorem claim_c4_code_eval :
    ((50 : ℝ) ≤ 99 ∧ (99 : ℝ) ≤ 100) ∧ (99 : ℝ) < 200 / 2 ∧
    (bandSelect (xfList 17 (200 : ℝ)) (psdList sineInput) 50 100).2 ≠ [] ∧
    |(reportBandPeak (bandSelect (xfList 17 (200 : ℝ)) (psdList sineInput) 50 100).1
        (bandSelect (xfList 17 (200 : ℝ)) (psdList sineInput) 50 100).2).1 - 99|
      > 200 / 17 := by
  have hsl : sineInput.length = 17 := by
    rw [sineInput, List.length_map, List.length_range]
  have hxl : (xfList 17 (200 : ℝ)).length = 8 := by rw [xfList_length]
  have hpl : (psdList sineInput).length = 8 := by rw [psdList_length, hsl]
  refine ⟨⟨by norm_num, by norm_num⟩, by norm_num, ?_, ?_⟩
  · have hzl : 5 < ((xfList 17 (200 : ℝ)).zip (psdList sineInput)).length := by
      rw [List.length_zip]
      omega
    have h5x : 5 < (xfList 17 (200 : ℝ)).length := by omega
    have hx5 : (xfList 17 (200 : ℝ))[5] = 1000 / 17 := by
      rw [← getD_of_lt _ _ 0 h5x, xfList_getD 17 (200 : ℝ) 5 (by norm_num)]
      norm_num
    have hmemz : ((xfList 17 (200 : ℝ)).zip (psdList sineInput))[5] ∈
        (xfList 17 (200 : ℝ)).zip (psdList sineInput) := List.getElem_mem hzl
    rw [List.getElem_zip] at hmemz
    have hmemf : ((xfList 17 (200 : ℝ))[5], (psdList sineInput)[5]) ∈
        ((xfList 17 (200 : ℝ)).zip (psdList sineInput)).filter
          fun q => decide ((50 : ℝ) ≤ q.1) && decide (q.1 ≤ (100 : ℝ)) := by
      refine List.mem_filter.mpr ⟨hmemz, ?_⟩
      rw [hx5]
      simp only [Bool.and_eq_true, decide_eq_true_eq]
      constructor <;> norm_num
    simp only [bandSelect, ne_eq, List.map_eq_nil_iff]
    exact List.ne_nil_of_mem hmemf
  · rcases reportBandPeak_fst
        (bandSelect (xfList 17 (200 : ℝ)) (psdList sineInput) 50 100).1
        (bandSelect (xfList 17 (200 : ℝ)) (psdList sineInput) 50 100).2 with h0 | hm
    · rw [h0]
      rw [abs_of_nonpos (by norm_num)]
      norm_num
    · obtain ⟨i, hi, hv⟩ := mem_xfList 17 (200 : ℝ) _
        (bandSelect_fst_subset _ _ _ _ _ hm)
      have hi7 : (i : ℝ) ≤ 7 := by
        have : i ≤ 7 := by omega
        exact_mod_cast this
      have hub : (i : ℝ) * 200 / 17 ≤ 1400 / 17 := by linarith
      rw [hv, abs_of_nonpos (by linarith)]
      linarith

end Emg2Pose
